import Mathlib

/-!
Verification of the HomeAutomationSystem repository (src/main.py).

Python strings are embedded as `List Char`; Python exceptions as
`Except PyError`.  Each definition below mirrors one function or method
of `src/main.py`.
-/

/-- Python exception kinds that the embedded code can raise. -/
inductive PyError where
  | keyError
  | indexError
  | attributeError
  deriving DecidableEq, Repr

/-- Shorthand turning a Lean string literal into the `List Char` embedding. -/
def S (s : String) : List Char := s.data

/-- Python `str.split()` (no separator): split on runs of whitespace,
discarding empty pieces. -/
def pySplitWs : List Char → List (List Char)
  | [] => []
  | [c] => if c.isWhitespace then [] else [[c]]
  | c :: d :: rest =>
    if c.isWhitespace then pySplitWs (d :: rest)
    else if d.isWhitespace then [c] :: pySplitWs rest
    else
      match pySplitWs (d :: rest) with
      | [] => [[c]]
      | w :: ws => (c :: w) :: ws

/-- Python `str.split(", ")`: split on the literal two-character separator,
keeping empty pieces, scanning left to right. -/
def splitCS : List Char → List (List Char)
  | [] => [[]]
  | [c] => [[c]]
  | c :: d :: rest =>
    if c = ',' ∧ d = ' ' then [] :: splitCS rest
    else
      match splitCS (d :: rest) with
      | [] => [[c]]
      | w :: ws => (c :: w) :: ws

/-- Python `" ".join(xs)`. -/
def joinSpace : List (List Char) → List Char
  | [] => []
  | [w] => w
  | w :: ws => w ++ ' ' :: joinSpace ws

/-- Whether the two-character separator `", "` occurs in the string. -/
def hasCS : List Char → Bool
  | c :: d :: rest => (decide (c = ',') && decide (d = ' ')) || hasCS (d :: rest)
  | _ => false

/-- Python `str.capitalize()`: first character upper-cased, rest lower-cased. -/
def pyCapitalize : List Char → List Char
  | [] => []
  | c :: rest => c.toUpper :: rest.map Char.toLower

/-- Result of a device operation: the simple devices return a single string,
`Phanos.operate` returns a list of its children's results. -/
inductive OpResult where
  | str (s : List Char)
  | lst (rs : List OpResult)

/-- The smart devices of `src/main.py`.  `thermostatAdapter` wraps the (stateless)
`SmartThermostat`; `phanos` owns its ordered child list. -/
inductive SmartDevice where
  | light
  | namedLight (name : List Char)
  | ceilingFan
  | securityCamera
  | doorLock
  | airConditioner
  | thermostatAdapter
  | phanos (lights : List SmartDevice)

/-- `SmartThermostat.set_temperature`. -/
def set_temperature (temperature : List Char) : List Char :=
  S "Thermostat temperature set to " ++ temperature ++ S "."

mutual

/-- The `operate` method of each `SmartDevice` subclass in `src/main.py`.
The `Except` layer records where a Python exception could propagate;
every branch of the source is total. -/
def SmartDevice.operate : SmartDevice → List Char → Except PyError OpResult
  | .light, action => .ok (.str (S "Light is " ++ action ++ S "."))
  | .namedLight name, action =>
      .ok (.str (pyCapitalize name ++ ' ' :: (S "Light is " ++ action ++ S ".")))
  | .ceilingFan, action => .ok (.str (S "Ceiling fan is " ++ action ++ S "."))
  | .securityCamera, action =>
      .ok (.str (S "Security camera is now " ++ action ++ S "."))
  | .doorLock, action => .ok (.str (S "The door lock is " ++ action ++ S "."))
  | .airConditioner, action =>
      .ok (.str (S "Air conditioner is " ++ action ++ S "."))
  | .thermostatAdapter, action =>
      let words := pySplitWs action
      let temperature := joinSpace ((words.drop 3).take 2)
      .ok (.str (set_temperature temperature))
  | .phanos lights, action => do
      let rs ← SmartDevice.operateAll lights action
      .ok (.lst (rs ++ [.str (S "Phanos with all lights " ++ action ++ S ".")]))

/-- The loop body of `Phanos.operate`: run each child in insertion order. -/
def SmartDevice.operateAll : List SmartDevice → List Char → Except PyError (List OpResult)
  | [], _ => .ok []
  | d :: ds, action => do
      let r ← SmartDevice.operate d action
      let rs ← SmartDevice.operateAll ds action
      .ok (r :: rs)

end

/-- What `SmartDeviceFactory.get_device` returns: a device, or (because the
factory catches its own `ValueError`) the error string. -/
inductive FactoryResult where
  | device (d : SmartDevice)
  | errorString (s : List Char)

/-- `SmartDeviceFactory.get_device`: the if/elif chain of `src/main.py`;
the `else` branch raises `ValueError`, which the surrounding `try` catches
and turns into the string `"Error: Device name is not valid."`. -/
def SmartDeviceFactory.get_device (device_name : List Char) : FactoryResult :=
  if device_name = S "light" then .device .light
  else if device_name = S "ceiling fan" then .device .ceilingFan
  else if device_name = S "security camera" then .device .securityCamera
  else if device_name = S "door lock" then .device .doorLock
  else if device_name = S "air conditioner" then .device .airConditioner
  else if device_name = S "thermostat" then .device .thermostatAdapter
  else if device_name = S "phanos" then
    .device (.phanos [.namedLight (S "blue"), .namedLight (S "red"),
                      .namedLight (S "orange")])
  else .errorString (S "Error: Device name is not valid.")

/-- The kind names the factory recognizes. -/
def recognizedKinds : List (List Char) :=
  [S "light", S "ceiling fan", S "security camera", S "door lock",
   S "air conditioner", S "thermostat", S "phanos"]

/-- The registry map: an insertion-ordered association list, as a Python dict. -/
def Registry := List (List Char × FactoryResult)

/-- Python dict assignment `d[k] = v`: overwrite in place if the key exists
(keeping its position), otherwise append at the end. -/
def dictSet : List (List Char × FactoryResult) → List Char → FactoryResult →
    List (List Char × FactoryResult)
  | [], k, v => [(k, v)]
  | (k', v') :: rest, k, v =>
    if k' = k then (k', v) :: rest else (k', v') :: dictSet rest k v

/-- Python dict lookup `d[k]`. -/
def dictLookup : List (List Char × FactoryResult) → List Char → Option FactoryResult
  | [], _ => none
  | (k', v') :: rest, k => if k' = k then some v' else dictLookup rest k

/-- The state of the `DeviceController` singleton: `DeviceController._instance`
is `None` until the first construction, then the one instance (its registry). -/
def ControllerState := Option Registry

/-- `DeviceController.__new__`: allocate the single instance on first call,
return the existing instance afterwards.  The second component is the
instance handed back to the caller. -/
def DeviceController.new : ControllerState → ControllerState × Registry
  | none => (some [], [])
  | some reg => (some reg, reg)

/-- `DeviceController.add_device`. -/
def DeviceController.add_device (reg : Registry) (device_name : List Char)
    (device : FactoryResult) : Registry :=
  dictSet reg device_name device

/-- `DeviceController.get_device`: Python `self.device_registry[device_name]`
raises `KeyError` when the key is absent. -/
def DeviceController.get_device (reg : Registry) (device_name : List Char) :
    Except PyError FactoryResult :=
  match dictLookup reg device_name with
  | some v => .ok v
  | none => .error .keyError

/-- Python truthiness of a registry value: objects are truthy, a string is
truthy iff nonempty. -/
def FactoryResult.isTruthy : FactoryResult → Bool
  | .device _ => true
  | .errorString s => s ≠ []

/-- `DeviceController.execute_device_operation`: look the device up (which can
raise `KeyError`), then call `operate` if the value is truthy, else return the
sentinel string.  Calling `operate` on a stored error string would raise
`AttributeError` in Python. -/
def DeviceController.execute_device_operation (reg : Registry)
    (device_name action : List Char) : Except PyError OpResult := do
  let device ← DeviceController.get_device reg device_name
  if device.isTruthy then
    match device with
    | .device d => d.operate action
    | .errorString _ => .error .attributeError
  else
    .ok (.str (S "Invalid: Device does not exist."))

/-- `Task`: the (device id, time label, action phrase) value. -/
structure PTask where
  device_name : List Char
  time : List Char
  action : List Char

/-- The rendered instruction string built in `add_task_to_builder`:
Python `f"At {task.time}, {task.action} {task.device_name}"`. -/
def renderTask (t : PTask) : List Char :=
  S "At " ++ t.time ++ S ", " ++ t.action ++ ' ' :: t.device_name

/-- `ScheduleBuilder` state: the single internal `Schedule` (its task-string
list) and the dict mapping device names to lists of rendered strings. -/
structure PBuilder where
  schedule : List (List Char)
  tasks : List (List Char × List (List Char))

/-- A fresh `ScheduleBuilder()`. -/
def ScheduleBuilder.init : PBuilder := ⟨[], []⟩

/-- The dict update of `add_task_to_builder`: create an empty list for a new
device name (at the end, preserving first-seen order), then append the
rendered string to that device's list. -/
def dictAppend : List (List Char × List (List Char)) → List Char → List Char →
    List (List Char × List (List Char))
  | [], k, v => [(k, [v])]
  | (k', vs) :: rest, k, v =>
    if k' = k then (k', vs ++ [v]) :: rest else (k', vs) :: dictAppend rest k v

/-- `ScheduleBuilder.add_task_to_builder`. -/
def ScheduleBuilder.add_task_to_builder (b : PBuilder) (t : PTask) : PBuilder :=
  { b with tasks := dictAppend b.tasks t.device_name (renderTask t) }

/-- `ScheduleBuilder.get_schedule`: append every rendered string (device lists
in dict order, arrival order within a list) to the builder's single internal
`Schedule`, and return that schedule's task list. -/
def ScheduleBuilder.get_schedule (b : PBuilder) : PBuilder × List (List Char) :=
  let s := b.schedule ++ (b.tasks.map Prod.snd).flatten
  ({ b with schedule := s }, s)

/-- `Director.construct_night_schedule`. -/
def Director.construct_night_schedule : List (List Char) :=
  (ScheduleBuilder.get_schedule
    (ScheduleBuilder.add_task_to_builder
      (ScheduleBuilder.add_task_to_builder
        (ScheduleBuilder.add_task_to_builder
          (ScheduleBuilder.add_task_to_builder ScheduleBuilder.init
            ⟨S "door_lock", S "21:00", S "engage"⟩)
          ⟨S "bedroom_light", S "21:30", S "dim to 50%"⟩)
        ⟨S "air_conditioner", S "21:30", S "turn on"⟩)
      ⟨S "phanos", S "22:00", S "turn on"⟩)).2

/-- `SmartHomeManagerFacade.extract_action`: split the sentence on `", "`,
take the second part, split it on whitespace, and join all tokens but the
last with single spaces.  `parts[1]` raises `IndexError` when absent. -/
def SmartHomeManagerFacade.extract_action (sentence : List Char) :
    Except PyError (List Char) :=
  match splitCS sentence with
  | _ :: p1 :: _ => .ok (joinSpace (pySplitWs p1).dropLast)
  | _ => .error .indexError

/-- The device name taken in `_execute_schedule_tasks`:
Python `task.split()[-1]`, raising `IndexError` on an empty token list. -/
def SmartHomeManagerFacade.device_name_of (task : List Char) :
    Except PyError (List Char) :=
  match (pySplitWs task).getLast? with
  | some d => .ok d
  | none => .error .indexError

/-- `SmartHomeManagerFacade._execute_schedule_tasks`: for each rendered task
string, extract device name and action and dispatch through the controller;
collects the (device name, result) pairs in order. -/
def SmartHomeManagerFacade.execute_schedule_tasks (reg : Registry)
    (tasks : List (List Char)) : Except PyError (List (List Char × OpResult)) :=
  tasks.mapM (fun task => do
    let dn ← SmartHomeManagerFacade.device_name_of task
    let action ← SmartHomeManagerFacade.extract_action task
    let r ← DeviceController.execute_device_operation reg dn action
    .ok (dn, r))

/-- `SmartHomeManagerFacade._setup_devices`: the registry contents after the
nine `add_device` calls, each storing a factory-constructed device. -/
def SmartHomeManagerFacade.setup_devices : Registry :=
  let f := SmartDeviceFactory.get_device
  DeviceController.add_device
    (DeviceController.add_device
      (DeviceController.add_device
        (DeviceController.add_device
          (DeviceController.add_device
            (DeviceController.add_device
              (DeviceController.add_device
                (DeviceController.add_device
                  (DeviceController.add_device []
                    (S "security_camera") (f (S "security camera")))
                  (S "ceiling_fan") (f (S "ceiling fan")))
                (S "bedroom_light") (f (S "light")))
              (S "kitchen_light") (f (S "light")))
            (S "dining_room_light") (f (S "light")))
          (S "door_lock") (f (S "door lock")))
        (S "air_conditioner") (f (S "air conditioner")))
      (S "thermostat") (f (S "thermostat")))
    (S "phanos") (f (S "phanos"))

/-- A fresh builder fed a task sequence, as in `Director`'s recipes. -/
def buildTasks (ts : List PTask) : PBuilder :=
  ts.foldl ScheduleBuilder.add_task_to_builder ScheduleBuilder.init

/-- Repeated calls of `get_schedule` on the same builder: the pair is the
builder state and the return value after the last call. -/
def iterGetSchedule (b : PBuilder) : Nat → PBuilder × List (List Char)
  | 0 => (b, b.schedule)
  | k + 1 => ScheduleBuilder.get_schedule (iterGetSchedule b k).1

/-- The device ids of a sequence, each kept at its first occurrence only. -/
def firstSeen : List (List Char) → List (List Char)
  | [] => []
  | k :: ks => k :: (firstSeen ks).filter (fun k2 => decide (k2 ≠ k))

/-- Modelled from the claim's wording, as the comparison point for C4: the
rendered strings grouped by device id in the order each id was first seen,
each group in arrival order. -/
def specGroupedSchedule (ts : List PTask) : List (List Char) :=
  ((firstSeen (ts.map PTask.device_name)).map
    (fun d => (ts.filter (fun t => decide (t.device_name = d))).map renderTask)).flatten

/-- A single-word device id: nonempty and free of whitespace. -/
def isSingleWord (w : List Char) : Bool :=
  !w.isEmpty && w.all (fun c => !c.isWhitespace)

/-- No trailing whitespace: the last character, if any, is not whitespace. -/
def noTrailingWs (s : List Char) : Bool :=
  s.getLast?.all (fun c => !c.isWhitespace)

/-- Python dict lookup after assignment to the same key finds the new value. -/
theorem dictLookup_dictSet (r : List (List Char × FactoryResult))
    (k : List Char) (v : FactoryResult) : dictLookup (dictSet r k v) k = some v := by
  induction r with
  | nil => simp [dictSet, dictLookup]
  | cons p rest ih =>
    by_cases h : p.1 = k
    · simp [dictSet, dictLookup, h]
    · simp [dictSet, dictLookup, h, ih]

mutual

/-- Every `operate` branch of the source is total: no exception is produced. -/
theorem SmartDevice.operate_total : ∀ (d : SmartDevice) (a : List Char),
    ∃ r, SmartDevice.operate d a = .ok r
  | .light, _ => ⟨_, rfl⟩
  | .namedLight _, _ => ⟨_, rfl⟩
  | .ceilingFan, _ => ⟨_, rfl⟩
  | .securityCamera, _ => ⟨_, rfl⟩
  | .doorLock, _ => ⟨_, rfl⟩
  | .airConditioner, _ => ⟨_, rfl⟩
  | .thermostatAdapter, _ => ⟨_, rfl⟩
  | .phanos ls, a => by
    obtain ⟨rs, hrs, -⟩ := SmartDevice.operateAll_total ls a
    refine ⟨.lst (rs ++ [.str (S "Phanos with all lights " ++ a ++ S ".")]), ?_⟩
    simp only [SmartDevice.operate, hrs]
    rfl

/-- The child loop of `Phanos.operate` is total, and the collected results
stand in one-to-one order-preserving correspondence with the children. -/
theorem SmartDevice.operateAll_total : ∀ (ls : List SmartDevice) (a : List Char),
    ∃ rs, SmartDevice.operateAll ls a = .ok rs ∧
      List.Forall₂ (fun d r => SmartDevice.operate d a = .ok r) ls rs
  | [], _ => ⟨[], rfl, .nil⟩
  | d :: ds, a => by
    obtain ⟨r, hr⟩ := SmartDevice.operate_total d a
    obtain ⟨rs, hrs, hf⟩ := SmartDevice.operateAll_total ds a
    exact ⟨r :: rs, by simp only [SmartDevice.operateAll, hr, hrs]; rfl,
      .cons hr hf⟩

end

/-- Helper: two consecutive index lookups pin down a drop/take slice. -/
theorem drop_take_pair {α : Type} : ∀ (l : List α) (i : Nat) (x y : α),
    l[i]? = some x → l[i + 1]? = some y → (l.drop i).take 2 = [x, y]
  | [], i, x, y => by intro hx _; simp at hx
  | a :: l, 0, x, y => by
    intro hx hy
    simp only [List.getElem?_cons_zero, Option.some.injEq] at hx
    match l, hy with
    | b :: l, hy =>
      simp only [List.getElem?_cons_succ, List.getElem?_cons_zero,
        Option.some.injEq] at hy
      simp [hx, hy]
  | a :: l, i + 1, x, y => by
    intro hx hy
    simp only [List.getElem?_cons_succ] at hx hy
    simpa using drop_take_pair l i x y hx hy

/-- C1: the spec and the claim say that dispatching to an id absent from the
registry returns the sentinel "device does not exist" string without raising.
The code instead indexes the dict directly, so `get_device` raises `KeyError`
and the sentinel branch is dead: on the fully populated setup registry,
dispatching to the absent id `"garage_door"` raises `KeyError`. -/
theorem C1_missing_device_raises_keyerror :
    DeviceController.execute_device_operation
      SmartHomeManagerFacade.setup_devices (S "garage_door") (S "turn on") =
    .error .keyError := rfl

/-- C3: the thermostat adapter splits the action into whitespace tokens, joins
the tokens at positions 3 and 4 with a space and reports that as the
temperature; the stated concrete action is an instance. -/
theorem C3_thermostat_positional_slice (a t3 t4 : List Char)
    (h3 : (pySplitWs a)[3]? = some t3) (h4 : (pySplitWs a)[4]? = some t4) :
    SmartDevice.operate .thermostatAdapter a =
      .ok (.str (S "Thermostat temperature set to " ++ (t3 ++ ' ' :: t4) ++ S ".")) := by
  have hslice := drop_take_pair (pySplitWs a) 3 t3 t4 h3 h4
  simp [SmartDevice.operate, set_temperature, hslice, joinSpace]

/-- Witness for C3 at the action `"set temperature to 22 C of"`. -/
theorem C3_witness :
    SmartDevice.operate .thermostatAdapter (S "set temperature to 22 C of") =
      .ok (.str (S "Thermostat temperature set to 22 C.")) :=
  C3_thermostat_positional_slice (S "set temperature to 22 C of")
    (S "22") (S "C") rfl rfl

/-- C5: for every recognized kind name the factory returns an actual device,
and that device's `operate` returns a result (raises no exception) for every
action string — including, for the thermostat adapter, actions with fewer
than 5 whitespace tokens. -/
theorem C5_recognized_devices_never_fail (kind : List Char)
    (h : kind ∈ recognizedKinds) (action : List Char) :
    ∃ d, SmartDeviceFactory.get_device kind = .device d ∧
      ∃ r, SmartDevice.operate d action = .ok r := by
  simp only [recognizedKinds, List.mem_cons, List.not_mem_nil, or_false] at h
  rcases h with h | h | h | h | h | h | h <;> subst h <;>
    exact ⟨_, rfl, SmartDevice.operate_total _ action⟩

/-- Witness for C5 at kind `"thermostat"` and the one-token action `"x"`. -/
theorem C5_witness :
    ∃ d, SmartDeviceFactory.get_device (S "thermostat") = .device d ∧
      ∃ r, SmartDevice.operate d (S "x") = .ok r :=
  C5_recognized_devices_never_fail (S "thermostat") (by decide) (S "x")

/-- C6: for every kind name outside the recognized set the factory returns the
descriptive error string (the caught `ValueError`), and no exception escapes. -/
theorem C6_unknown_kind_yields_error_value (kind : List Char)
    (h : kind ∉ recognizedKinds) :
    SmartDeviceFactory.get_device kind =
      .errorString (S "Error: Device name is not valid.") := by
  simp only [recognizedKinds, List.mem_cons, List.not_mem_nil, or_false,
    not_or] at h
  obtain ⟨h1, h2, h3, h4, h5, h6, h7⟩ := h
  simp [SmartDeviceFactory.get_device, h1, h2, h3, h4, h5, h6, h7]

/-- Witness for C6 at the kind `"bogus"`. -/
theorem C6_witness :
    SmartDeviceFactory.get_device (S "bogus") =
      .errorString (S "Error: Device name is not valid.") :=
  C6_unknown_kind_yields_error_value (S "bogus") (by decide)

/-- C7: the controller is construct-once — a second construction request
returns the same instance and leaves the process state unchanged — and a
second `add_device` for the same id overwrites the first, as a subsequent
lookup confirms. -/
theorem C7_singleton_registry_overwrite :
    (∀ st : ControllerState,
      (DeviceController.new (DeviceController.new st).1).2 =
        (DeviceController.new st).2 ∧
      (DeviceController.new (DeviceController.new st).1).1 =
        (DeviceController.new st).1) ∧
    (∀ (reg : Registry) (id d1 d2 : _),
      DeviceController.get_device
        (DeviceController.add_device
          (DeviceController.add_device reg id d1) id d2) id = .ok d2) := by
  constructor
  · intro st
    match st with
    | none => exact ⟨rfl, rfl⟩
    | some reg => exact ⟨rfl, rfl⟩
  · intro reg id d1 d2
    simp [DeviceController.get_device, DeviceController.add_device,
      dictLookup_dictSet]

/-- C8: the composite's `operate` runs each child in insertion order,
collects one result per child, and appends exactly one group-summary string,
so the returned sequence has length children + 1. -/
theorem C8_phanos_one_result_per_child (ls : List SmartDevice)
    (action : List Char) :
    ∃ rs, SmartDevice.operateAll ls action = .ok rs ∧
      List.Forall₂ (fun d r => SmartDevice.operate d action = .ok r) ls rs ∧
      SmartDevice.operate (.phanos ls) action =
        .ok (.lst (rs ++ [.str (S "Phanos with all lights " ++ action ++ S ".")])) ∧
      (rs ++ [OpResult.str (S "Phanos with all lights " ++ action ++ S ".")]).length =
        ls.length + 1 := by
  obtain ⟨rs, hrs, hf⟩ := SmartDevice.operateAll_total ls action
  refine ⟨rs, hrs, hf, by simp only [SmartDevice.operate, hrs]; rfl, ?_⟩
  simp [hf.length_eq]

/-- C9: executing the Director's night schedule against the fully populated
setup registry performs exactly 4 dispatches, in the order door_lock,
bedroom_light, air_conditioner, phanos, and yields those devices' results. -/
theorem C9_night_schedule_end_to_end :
    SmartHomeManagerFacade.execute_schedule_tasks
      SmartHomeManagerFacade.setup_devices Director.construct_night_schedule =
    .ok [(S "door_lock", .str (S "The door lock is engage.")),
         (S "bedroom_light", .str (S "Light is dim to 50%.")),
         (S "air_conditioner", .str (S "Air conditioner is turn on.")),
         (S "phanos", .lst [.str (S "Blue Light is turn on."),
                            .str (S "Red Light is turn on."),
                            .str (S "Orange Light is turn on."),
                            .str (S "Phanos with all lights turn on.")])] := rfl

/-- Adding tasks never touches the builder's internal `Schedule`. -/
theorem buildTasks_schedule (ts : List PTask) : (buildTasks ts).schedule = [] := by
  suffices h : ∀ b : PBuilder,
      (ts.foldl ScheduleBuilder.add_task_to_builder b).schedule = b.schedule by
    exact h ScheduleBuilder.init
  induction ts with
  | nil => intro b; rfl
  | cons t ts ih => intro b; exact ih _

/-- `get_schedule` never touches the dict of rendered tasks. -/
theorem iterGetSchedule_tasks (b : PBuilder) (k : Nat) :
    (iterGetSchedule b k).1.tasks = b.tasks := by
  induction k with
  | zero => rfl
  | succ k ih => simp [iterGetSchedule, ScheduleBuilder.get_schedule, ih]

/-- Appending one more copy to a concatenation of identical copies. -/
theorem flatten_replicate_succ {α : Type} (k : Nat) (x : List α) :
    (List.replicate (k + 1) x).flatten = (List.replicate k x).flatten ++ x := by
  induction k with
  | zero => simp
  | succ m ih =>
    calc (List.replicate (m + 2) x).flatten
        = x ++ (List.replicate (m + 1) x).flatten := by
          simp [List.replicate_succ]
      _ = x ++ ((List.replicate m x).flatten ++ x) := by rw [ih]
      _ = (x ++ (List.replicate m x).flatten) ++ x := by rw [List.append_assoc]
      _ = (List.replicate (m + 1) x).flatten ++ x := by
          simp [List.replicate_succ]

/-- Length of a concatenation of `k` identical copies. -/
theorem flatten_replicate_length {α : Type} (k : Nat) (x : List α) :
    ((List.replicate k x).flatten).length = k * x.length := by
  induction k with
  | zero => simp
  | succ m ih =>
    simp only [List.replicate_succ, List.flatten_cons, List.length_append, ih]
    ring

/-- Occurrence count in a concatenation of `k` identical copies. -/
theorem flatten_replicate_count {α : Type} [BEq α] (k : Nat) (x : List α)
    (s : α) : ((List.replicate k x).flatten).count s = k * x.count s := by
  induction k with
  | zero => simp
  | succ m ih =>
    simp only [List.replicate_succ, List.flatten_cons, List.count_append, ih]
    ring

/-- After `k` calls the internal schedule holds `k` concatenated copies of the
flattened dict. -/
theorem iterGetSchedule_schedule (b : PBuilder) (k : Nat) :
    (iterGetSchedule b k).1.schedule =
      b.schedule ++ (List.replicate k ((b.tasks.map Prod.snd).flatten)).flatten := by
  induction k with
  | zero => simp [iterGetSchedule]
  | succ k ih =>
    have ht := iterGetSchedule_tasks b k
    simp [iterGetSchedule, ScheduleBuilder.get_schedule, ih, ht,
      flatten_replicate_succ]

/-- The value returned by the `k+1`-st call is the updated internal schedule. -/
theorem iterGetSchedule_val (b : PBuilder) (k : Nat) :
    (iterGetSchedule b (k + 1)).2 = (iterGetSchedule b (k + 1)).1.schedule := rfl

/-- C10: `get_schedule` is not idempotent — on a builder holding `n` rendered
strings, the `k`-th call returns a schedule of length `k * n`, holding each
rendered string `k` times. -/
theorem C10_get_schedule_not_idempotent (ts : List PTask) (k : Nat) :
    ((iterGetSchedule (buildTasks ts) (k + 1)).2).length =
      (k + 1) * (((buildTasks ts).tasks.map Prod.snd).flatten).length ∧
    ∀ s : List Char, ((iterGetSchedule (buildTasks ts) (k + 1)).2).count s =
      (k + 1) * (((buildTasks ts).tasks.map Prod.snd).flatten).count s := by
  rw [iterGetSchedule_val, iterGetSchedule_schedule, buildTasks_schedule]
  simp only [List.nil_append]
  exact ⟨flatten_replicate_length _ _, fun s => flatten_replicate_count _ _ s⟩

/-- Membership in `firstSeen` is membership in the original sequence. -/
theorem mem_firstSeen (x : List Char) : ∀ l : List (List Char),
    x ∈ firstSeen l ↔ x ∈ l
  | [] => by simp [firstSeen]
  | a :: l => by
    by_cases hxa : x = a
    · subst hxa; simp [firstSeen]
    · simp [firstSeen, List.mem_filter, mem_firstSeen x l, hxa]

/-- `firstSeen` has no duplicate ids. -/
theorem firstSeen_nodup : ∀ l : List (List Char), (firstSeen l).Nodup
  | [] => by simp [firstSeen]
  | a :: l => by
    simp only [firstSeen, List.nodup_cons]
    refine ⟨fun hmem => ?_, (firstSeen_nodup l).filter _⟩
    have := (List.mem_filter.mp hmem).2
    simp at this

/-- Appending a fresh id extends `firstSeen` at the end. -/
theorem firstSeen_append_new (k : List Char) : ∀ l : List (List Char),
    k ∉ l → firstSeen (l ++ [k]) = firstSeen l ++ [k]
  | [], _ => by simp [firstSeen]
  | a :: l, h => by
    have hka : ¬(k = a) := fun he => h (he ▸ List.mem_cons_self a l)
    have hkl : k ∉ l := fun hm => h (List.mem_cons_of_mem a hm)
    rw [List.cons_append]
    show a :: (firstSeen (l ++ [k])).filter (fun k2 => decide (k2 ≠ a)) =
      (a :: (firstSeen l).filter (fun k2 => decide (k2 ≠ a))) ++ [k]
    rw [firstSeen_append_new k l hkl, List.filter_append]
    simp [hka]

/-- Appending an already-seen id leaves `firstSeen` unchanged. -/
theorem firstSeen_append_old (k : List Char) : ∀ l : List (List Char),
    k ∈ l → firstSeen (l ++ [k]) = firstSeen l
  | a :: l, h => by
    by_cases hkl : k ∈ l
    · rw [List.cons_append]
      show a :: (firstSeen (l ++ [k])).filter (fun k2 => decide (k2 ≠ a)) =
        a :: (firstSeen l).filter (fun k2 => decide (k2 ≠ a))
      rw [firstSeen_append_old k l hkl]
    · have hka : k = a := by
        rcases List.mem_cons.mp h with h' | h'
        · exact h'
        · exact absurd h' hkl
      subst hka
      rw [List.cons_append]
      show k :: (firstSeen (l ++ [k])).filter (fun k2 => decide (k2 ≠ k)) =
        k :: (firstSeen l).filter (fun k2 => decide (k2 ≠ k))
      rw [firstSeen_append_new k l hkl, List.filter_append]
      simp

/-- A fresh key lands at the end of the builder dict. -/
theorem dictAppend_new (k v : List Char) :
    ∀ L : List (List Char × List (List Char)), k ∉ L.map Prod.fst →
      dictAppend L k v = L ++ [(k, [v])]
  | [], _ => rfl
  | (a, vs) :: L, h => by
    have hak : ¬(a = k) := fun he => h (by simp [he])
    have hkL : k ∉ L.map Prod.fst := fun hm => h (by simp [hm])
    simp only [dictAppend, hak, if_false, List.cons_append,
      dictAppend_new k v L hkL]

/-- Updating an existing key of a dict presented as a map over its
duplicate-free key list appends the value to that key's entry. -/
theorem dictAppend_mem (k v : List Char) (f : List Char → List (List Char)) :
    ∀ keys : List (List Char), keys.Nodup → k ∈ keys →
      dictAppend (keys.map (fun d => (d, f d))) k v =
        keys.map (fun d => (d, if d = k then f d ++ [v] else f d))
  | [], _, hm => absurd hm (List.not_mem_nil k)
  | a :: keys, hnd, hm => by
    rcases List.nodup_cons.mp hnd with ⟨hak, hnd'⟩
    by_cases hak2 : a = k
    · subst hak2
      simp only [List.map_cons, dictAppend, if_pos rfl, if_true]
      congr 1
      refine (List.map_congr_left fun d hd => ?_).symm
      have : ¬(d = a) := fun he => hak (he ▸ hd)
      simp [this]
    · have hkkeys : k ∈ keys := by
        rcases List.mem_cons.mp hm with h' | h'
        · exact absurd h'.symm hak2
        · exact h'
      simp only [List.map_cons, dictAppend, hak2, if_false,
        dictAppend_mem k v f keys hnd' hkkeys]

/-- Filtering a task list extended by one task. -/
theorem filter_tasks_append (ts : List PTask) (t : PTask) (d : List Char) :
    ((ts ++ [t]).filter (fun t2 => decide (t2.device_name = d))).map renderTask =
      (ts.filter (fun t2 => decide (t2.device_name = d))).map renderTask ++
        (if t.device_name = d then [renderTask t] else []) := by
  rw [List.filter_append, List.map_append]
  congr 1
  by_cases h : t.device_name = d <;> simp [h]

/-- No task of `ts` matches an id absent from `ts`. -/
theorem filter_tasks_not_mem (ts : List PTask) (k : List Char)
    (h : k ∉ ts.map PTask.device_name) :
    ts.filter (fun t => decide (t.device_name = k)) = [] := by
  refine List.filter_eq_nil_iff.mpr fun t ht => ?_
  simp only [decide_eq_true_eq]
  exact fun he => h (he ▸ List.mem_map_of_mem PTask.device_name ht)

/-- The builder dict after adding a task sequence: one entry per device id in
first-seen order, carrying that device's rendered strings in arrival order. -/
theorem buildTasks_tasks (ts : List PTask) :
    (buildTasks ts).tasks =
      (firstSeen (ts.map PTask.device_name)).map
        (fun d => (d, (ts.filter (fun t => decide (t.device_name = d))).map renderTask)) := by
  induction ts using List.reverseRecOn with
  | nil => rfl
  | append_singleton ts t ih =>
    have hfold : buildTasks (ts ++ [t]) =
        ScheduleBuilder.add_task_to_builder (buildTasks ts) t := by
      simp [buildTasks, List.foldl_append]
    rw [hfold, ScheduleBuilder.add_task_to_builder]
    simp only [ih, List.map_append, List.map_cons, List.map_nil]
    by_cases hk : t.device_name ∈ ts.map PTask.device_name
    · rw [firstSeen_append_old _ _ hk,
        dictAppend_mem _ _ _ _ (firstSeen_nodup _)
          ((mem_firstSeen _ _).mpr hk)]
      refine List.map_congr_left fun d hd => ?_
      rw [filter_tasks_append]
      by_cases hdk : d = t.device_name
      · subst hdk; simp
      · have : ¬(t.device_name = d) := fun he => hdk he.symm
        simp [hdk, this]
    · rw [firstSeen_append_new _ _ hk,
        dictAppend_new _ _ _ (by
          rw [List.map_map]
          simpa using fun hm => hk ((mem_firstSeen _ _).mp hm)),
        List.map_append]
      congr 1
      · refine List.map_congr_left fun d hd => ?_
        rw [filter_tasks_append]
        have : ¬(t.device_name = d) := fun he => hk (by
          have := (mem_firstSeen d _).mp ((he ▸ hd) : d ∈ firstSeen (ts.map PTask.device_name))
          exact he ▸ this)
        simp [this]
      · simp only [List.map_cons, List.map_nil]
        rw [filter_tasks_append, filter_tasks_not_mem ts _ hk]
        simp

/-- C4: building a fresh builder fed any task sequence yields the rendered
strings grouped by device id in first-seen order, each group in arrival
order. -/
theorem C4_schedule_groups_by_first_seen (ts : List PTask) :
    (ScheduleBuilder.get_schedule (buildTasks ts)).2 = specGroupedSchedule ts := by
  show (buildTasks ts).schedule ++ ((buildTasks ts).tasks.map Prod.snd).flatten =
    specGroupedSchedule ts
  rw [buildTasks_schedule, buildTasks_tasks, List.nil_append, List.map_map,
    specGroupedSchedule]
  rfl

example :
    (ScheduleBuilder.get_schedule (buildTasks
      [⟨S "fan", S "07:00", S "turn off"⟩,
       ⟨S "light", S "07:30", S "turn on"⟩,
       ⟨S "fan", S "08:00", S "turn on"⟩])).2 =
    [S "At 07:00, turn off fan", S "At 08:00, turn on fan",
     S "At 07:30, turn on light"] := rfl

/-- A nonempty whitespace-free string splits into itself alone. -/
theorem pySplitWs_word : ∀ w : List Char, w ≠ [] →
    (∀ c ∈ w, c.isWhitespace = false) → pySplitWs w = [w]
  | [], h, _ => absurd rfl h
  | [c], _, hw => by simp [pySplitWs, hw c (List.mem_singleton_self c)]
  | c :: d :: rest, _, hw => by
    have hc := hw c (List.mem_cons_self _ _)
    have hd := hw d (List.mem_cons_of_mem _ (List.mem_cons_self _ _))
    have ih := pySplitWs_word (d :: rest) (by simp)
      (fun x hx => hw x (List.mem_cons_of_mem _ hx))
    simp [pySplitWs, hc, hd, ih]

/-- Splitting a string whose head is not whitespace yields at least one word. -/
theorem pySplitWs_cons_ne_nil (y : Char) (as : List Char)
    (h : y.isWhitespace = false) : pySplitWs (y :: as) ≠ [] := by
  cases as with
  | nil => simp [pySplitWs, h]
  | cons e as' =>
    by_cases he : e.isWhitespace
    · simp [pySplitWs, h, he]
    · rcases hps : pySplitWs (e :: as') with _ | ⟨u, us⟩ <;>
        simp [pySplitWs, h, he, hps]

/-- Appending a space and a clean word appends exactly that word to the
whitespace split. -/
theorem pySplitWs_append_word (w : List Char) (hw : w ≠ [])
    (hw2 : ∀ c ∈ w, c.isWhitespace = false) :
    ∀ a : List Char, pySplitWs (a ++ ' ' :: w) = pySplitWs a ++ [w]
  | [] => by
    rcases w with _ | ⟨c, cs⟩
    · exact absurd rfl hw
    · simp [pySplitWs, pySplitWs_word (c :: cs) (by simp) hw2]
  | [x] => by
    by_cases hx : x.isWhitespace
    · have h0 := pySplitWs_append_word w hw hw2 []
      simp only [List.nil_append] at h0
      simp [pySplitWs, hx, h0]
    · simp [pySplitWs, hx, pySplitWs_word w hw hw2]
  | x :: y :: as => by
    by_cases hx : x.isWhitespace
    · have ih := pySplitWs_append_word w hw hw2 (y :: as)
      simp only [List.cons_append] at ih ⊢
      simp [pySplitWs, hx, ih]
    · by_cases hy : y.isWhitespace
      · have ih := pySplitWs_append_word w hw hw2 as
        simp only [List.cons_append] at ih ⊢
        simp [pySplitWs, hx, hy, ih]
      · have ih := pySplitWs_append_word w hw hw2 (y :: as)
        rcases hps : pySplitWs (y :: as) with _ | ⟨u, us⟩
        · exact absurd hps (pySplitWs_cons_ne_nil y as (by simpa using hy))
        · have ih' : pySplitWs ((y :: as) ++ ' ' :: w) = u :: (us ++ [w]) := by
            rw [ih, hps]; rfl
          simp only [List.cons_append] at ih' ⊢
          simp [pySplitWs, hx, hy, ih', hps]

/-- Peeling a non-comma head character preserves separator absence. -/
theorem hasCS_cons (c : Char) (l : List Char) (h : ¬(c = ',')) :
    hasCS (c :: l) = hasCS l := by
  cases l with
  | nil => rfl
  | cons d rest => simp [hasCS, h]

/-- A string with no space cannot contain the separator. -/
theorem hasCS_no_space : ∀ l : List Char, (∀ c ∈ l, ¬(c = ' ')) → hasCS l = false
  | [], _ => rfl
  | [_], _ => rfl
  | c :: d :: rest, h => by
    have hd : ¬(d = ' ') := h d (by simp)
    have ih := hasCS_no_space (d :: rest)
      (fun x hx => h x (List.mem_cons_of_mem _ hx))
    simp [hasCS, hd, ih]

/-- Concatenation keeps the separator out when neither side holds it and no
occurrence can straddle the boundary. -/
theorem hasCS_append : ∀ a b : List Char, hasCS a = false →
    a.getLast? ≠ some ',' → hasCS b = false → hasCS (a ++ b) = false
  | [], _, _, _, hb => hb
  | [c], b, _, hlast, hb => by
    have hc : ¬(c = ',') := fun he => hlast (by simp [he])
    rw [List.singleton_append, hasCS_cons c b hc]
    exact hb
  | c :: c' :: a', b, ha, hlast, hb => by
    simp only [hasCS, Bool.or_eq_false_iff] at ha
    obtain ⟨hcc, h1⟩ := ha
    have hlast' : (c' :: a').getLast? ≠ some ',' := fun h =>
      hlast (by rw [List.getLast?_cons_cons]; exact h)
    have ih := hasCS_append (c' :: a') b h1 hlast' hb
    simp only [List.cons_append] at ih ⊢
    simp [hasCS, hcc, ih]

/-- With no separator present, the split is the whole string. -/
theorem splitCS_no_sep : ∀ b : List Char, hasCS b = false → splitCS b = [b]
  | [], _ => rfl
  | [_], _ => rfl
  | c :: d :: rest, h => by
    simp only [hasCS, Bool.or_eq_false_iff] at h
    obtain ⟨hcd, h1⟩ := h
    have ih := splitCS_no_sep (d :: rest) h1
    have hcd' : ¬(c = ',' ∧ d = ' ') := by
      rintro ⟨e1, e2⟩
      simp [e1, e2] at hcd
    simp [splitCS, hcd', ih]

/-- Splitting around a single separator occurrence yields the two sides. -/
theorem splitCS_sep : ∀ a b : List Char, hasCS a = false → hasCS b = false →
    splitCS (a ++ ',' :: ' ' :: b) = [a, b]
  | [], b, _, hb => by
    simp [splitCS, splitCS_no_sep b hb]
  | [c], b, _, hb => by
    have h0 := splitCS_sep [] b rfl hb
    simp only [List.nil_append] at h0
    have hc : ¬(c = ',' ∧ (',' : Char) = ' ') := by
      rintro ⟨-, e2⟩
      exact absurd e2 (by decide)
    simp [splitCS, hc, h0, splitCS_no_sep b hb]
  | c :: c' :: a', b, ha, hb => by
    simp only [hasCS, Bool.or_eq_false_iff] at ha
    obtain ⟨hcc, h1⟩ := ha
    have ih := splitCS_sep (c' :: a') b h1 hb
    have hcd : ¬(c = ',' ∧ c' = ' ') := by
      rintro ⟨e1, e2⟩
      simp [e1, e2] at hcc
    simp only [List.cons_append] at ih ⊢
    simp [splitCS, hcd, ih]

/-- C2 (counterexample): the claim as stated is false.  The task
(id `"fan"`, time `"07:00"`, action `"turn  on"` with a double space) has a
single-word device id and a multi-word action with no trailing whitespace,
yet parsing the rendered string gives back `"turn on"`, not the original
action phrase. -/
theorem C2_counterexample :
    isSingleWord (S "fan") = true ∧
    noTrailingWs (S "turn  on") = true ∧
    2 ≤ (pySplitWs (S "turn  on")).length ∧
    SmartHomeManagerFacade.extract_action
      (renderTask ⟨S "fan", S "07:00", S "turn  on"⟩) = .ok (S "turn on") ∧
    ¬(S "turn on" = S "turn  on") :=
  ⟨by decide, by decide, by decide, rfl, by decide⟩

/-- C2 (amended): for a task whose device id is a single word, whose time and
action contain no `", "` and whose action does not end in a comma and equals
the single-space join of its at-least-two whitespace tokens, executing the
pipeline's parser on the builder's rendered string recovers exactly the
original device id and action phrase. -/
theorem C2_roundtrip_amended (dev time action : List Char)
    (hdev : isSingleWord dev = true)
    (htime : hasCS time = false)
    (hacs : hasCS action = false)
    (hcomma : action.getLast? ≠ some ',')
    (hnorm : joinSpace (pySplitWs action) = action)
    (hmulti : 2 ≤ (pySplitWs action).length) :
    SmartHomeManagerFacade.device_name_of
      (renderTask ⟨dev, time, action⟩) = .ok dev ∧
    SmartHomeManagerFacade.extract_action
      (renderTask ⟨dev, time, action⟩) = .ok action := by
  have hdev_ne : dev ≠ [] := by
    intro he
    subst he
    simp [isSingleWord] at hdev
  have hdev_ws : ∀ c ∈ dev, c.isWhitespace = false := by
    intro c hc
    have h2 : (dev.all fun c => !c.isWhitespace) = true := by
      simp only [isSingleWord, Bool.and_eq_true] at hdev
      exact hdev.2
    have h3 := List.all_eq_true.mp h2 c hc
    simpa using h3
  constructor
  · have hps := pySplitWs_append_word dev hdev_ne hdev_ws
      (((S "At " ++ time) ++ S ", ") ++ action)
    have hren : renderTask ⟨dev, time, action⟩ =
        (((S "At " ++ time) ++ S ", ") ++ action) ++ ' ' :: dev := rfl
    simp only [SmartHomeManagerFacade.device_name_of, hren, hps,
      List.getLast?_concat]
  · have hren : renderTask ⟨dev, time, action⟩ =
        (S "At " ++ time) ++ ',' :: ' ' :: (action ++ ' ' :: dev) := by
      show (((S "At " ++ time) ++ S ", ") ++ action) ++ ' ' :: dev = _
      rw [List.append_assoc ((S "At " ++ time) ++ S ", ") action (' ' :: dev),
        List.append_assoc (S "At " ++ time) (S ", ") (action ++ ' ' :: dev)]
      rfl
    have hA : hasCS (S "At " ++ time) = false := by
      show hasCS ('A' :: 't' :: ' ' :: time) = false
      rw [hasCS_cons 'A' _ (by decide), hasCS_cons 't' _ (by decide),
        hasCS_cons ' ' _ (by decide)]
      exact htime
    have hdev_nospace : ∀ c ∈ dev, ¬(c = ' ') := by
      intro c hc he
      have h4 := hdev_ws c hc
      rw [he] at h4
      exact absurd h4 (by decide)
    have hB : hasCS (action ++ ' ' :: dev) = false := by
      have hsd : hasCS (' ' :: dev) = false := by
        rw [hasCS_cons ' ' _ (by decide)]
        exact hasCS_no_space dev hdev_nospace
      exact hasCS_append action (' ' :: dev) hacs hcomma hsd
    have hsplit := splitCS_sep (S "At " ++ time) (action ++ ' ' :: dev) hA hB
    have hw2 := pySplitWs_append_word dev hdev_ne hdev_ws action
    simp only [SmartHomeManagerFacade.extract_action, hren, hsplit, hw2,
      List.dropLast_concat, hnorm]

/-- Witness for the amended C2 at the task (fan, 07:00, turn on). -/
theorem C2_witness :
    SmartHomeManagerFacade.device_name_of
      (renderTask ⟨S "fan", S "07:00", S "turn on"⟩) = .ok (S "fan") ∧
    SmartHomeManagerFacade.extract_action
      (renderTask ⟨S "fan", S "07:00", S "turn on"⟩) = .ok (S "turn on") :=
  C2_roundtrip_amended (S "fan") (S "07:00") (S "turn on")
    (by decide) (by decide) (by decide) (by decide) (by decide) (by decide)
